import Mathlib

/-!
Verification of the asdetector acquisition and reduction engine.

This file gives a shallow embedding in Lean 4 of the parts of the
`asdetector` Python code base (multi-camera infrared detector readout
front end) that the specification's testable properties talk about:

* the reduction-algorithm registry of `asdetector/utils/image.py`
  (frame-count and exposure-time conversions, CDS and Fowler frame
  reduction, numpy dtype widening);
* the deinterleaving index partition, skip-frame schedule,
  post-processing join loop, exposure-time-remaining updates and
  science-header parsing of `asdetector/detector/macie/io.py`;
* the shared status sink of `asdetector/utils/status.py`;
* command dispatch of `asdetector/interface/interface.py`.

Machine integers are modelled as `Nat`/`Int`, Python floats as exact
rationals `ℚ`, numpy arrays as lists, and raised Python exceptions as
`Except` values.  Each definition carries a reference to the source
function it translates.
-/

namespace Asdetector

/-! ## Python numeric primitives -/

/-- Python 3 `round()` applied to an exact rational: round to the nearest
integer, ties to the even integer (banker's rounding).  When the
fractional part is not exactly 1/2 this agrees with ordinary rounding. -/
def pyRound (q : ℚ) : ℤ :=
  if q - (⌊q⌋ : ℚ) = 1/2 then (if 2 ∣ ⌊q⌋ then ⌊q⌋ else ⌊q⌋ + 1) else round q

theorem pyRound_close (q : ℚ) : |(pyRound q : ℚ) - q| ≤ 1/2 := by
  by_cases h : q - (⌊q⌋ : ℚ) = 1/2
  · by_cases h2 : 2 ∣ ⌊q⌋
    · simp only [pyRound, if_pos h, if_pos h2]
      have hq : (⌊q⌋ : ℚ) - q = -(1/2) := by linarith
      rw [hq]
      norm_num [abs_le]
    · simp only [pyRound, if_pos h, if_neg h2]
      have hq : ((⌊q⌋ + 1 : ℤ) : ℚ) - q = 1/2 := by push_cast; linarith
      rw [hq]
      norm_num [abs_le]
  · simp only [pyRound, if_neg h]
    rw [abs_sub_comm]
    exact abs_sub_round q

/-! ## `asdetector/utils/image.py`: frame-count and exposure-time registry

`FRAMES_PER_EXPOSURE_TIME` maps a reduction-mode name to a function
computing the number of raw frames for a requested exposure time;
`EXPOSURE_TIME_PER_FRAMES` maps it to the effective exposure time of a
given frame count. -/

/-- Source `ssr_calc_frames(exposure_time, time_per_frame)`:
`int(round(exposure_time / time_per_frame))`. -/
def ssr_calc_frames (exposure_time time_per_frame : ℚ) : ℤ :=
  pyRound (exposure_time / time_per_frame)

/-- Source `cds_calc_frames`: one frame more than SSR. -/
def cds_calc_frames (exposure_time time_per_frame : ℚ) : ℤ :=
  ssr_calc_frames exposure_time time_per_frame + 1

/-- Source `mean_calc_frames`: twice the SSR frame count. -/
def mean_calc_frames (exposure_time time_per_frame : ℚ) : ℤ :=
  ssr_calc_frames exposure_time time_per_frame * 2

/-- Source `fowler_calc_frames(exposure_time, time_per_frame, fowler_number)`:
if the exposure time left after the Fowler pairs would be negative the
function warns and returns `fowler_number * 2` (the requested exposure is
clamped), otherwise `ssr_calc_frames(remaining) + fowler_number * 2`. -/
def fowler_calc_frames (exposure_time time_per_frame : ℚ) (fowler_number : ℤ) : ℤ :=
  let fowler_time := time_per_frame * (fowler_number : ℚ)
  let exposure_time_remaining := exposure_time - fowler_time
  if exposure_time_remaining < 0 then
    fowler_number * 2
  else
    ssr_calc_frames exposure_time_remaining time_per_frame + fowler_number * 2

def fowler2_calc_frames (t f : ℚ) : ℤ := fowler_calc_frames t f 2

def fowler4_calc_frames (t f : ℚ) : ℤ := fowler_calc_frames t f 4

def fowler8_calc_frames (t f : ℚ) : ℤ := fowler_calc_frames t f 8

def fowler16_calc_frames (t f : ℚ) : ℤ := fowler_calc_frames t f 16

/-- The reduction-mode names registered in `FRAME_REDUCE_METHODS`,
`FRAMES_PER_EXPOSURE_TIME` and `EXPOSURE_TIME_PER_FRAMES`. -/
inductive Mode
  | CDS | SSR | MEAN | MEDIAN | MODE | MIN | MAX
  | FOWLER2 | FOWLER4 | FOWLER8 | FOWLER16
  deriving DecidableEq, Repr

/-- The `FRAMES_PER_EXPOSURE_TIME` dictionary: note that `MEDIAN` and
`MODE` map to `mean_calc_frames` while `MIN` and `MAX` map to
`ssr_calc_frames`. -/
def FRAMES_PER_EXPOSURE_TIME : Mode → ℚ → ℚ → ℤ
  | .CDS => cds_calc_frames
  | .SSR => ssr_calc_frames
  | .MEAN => mean_calc_frames
  | .MEDIAN => mean_calc_frames
  | .MODE => mean_calc_frames
  | .MIN => ssr_calc_frames
  | .MAX => ssr_calc_frames
  | .FOWLER2 => fowler2_calc_frames
  | .FOWLER4 => fowler4_calc_frames
  | .FOWLER8 => fowler8_calc_frames
  | .FOWLER16 => fowler16_calc_frames

/-- Source `cds_calc_exposure(frames, time_per_frame) = (frames-1) * time_per_frame`. -/
def cds_calc_exposure (frames : ℤ) (time_per_frame : ℚ) : ℚ :=
  ((frames - 1 : ℤ) : ℚ) * time_per_frame

/-- Source `ssr_calc_exposure(frames, time_per_frame) = frames * time_per_frame`. -/
def ssr_calc_exposure (frames : ℤ) (time_per_frame : ℚ) : ℚ :=
  (frames : ℚ) * time_per_frame

/-- Source `mean_calc_exposure`: half the SSR exposure. -/
def mean_calc_exposure (frames : ℤ) (time_per_frame : ℚ) : ℚ :=
  ssr_calc_exposure frames time_per_frame / 2

/-- Source `fowler_calc_exposure(frames, time_per_frame, fowler_number)
= fowler_number * time_per_frame + (frames - 2 * fowler_number) * time_per_frame`. -/
def fowler_calc_exposure (frames : ℤ) (time_per_frame : ℚ) (fowler_number : ℤ) : ℚ :=
  let fowler_time := (fowler_number : ℚ) * time_per_frame
  let frame_time := ((frames - 2 * fowler_number : ℤ) : ℚ) * time_per_frame
  fowler_time + frame_time

def fowler2_calc_exposure (frames : ℤ) (f : ℚ) : ℚ := fowler_calc_exposure frames f 2

def fowler4_calc_exposure (frames : ℤ) (f : ℚ) : ℚ := fowler_calc_exposure frames f 4

/-- Function `fowler8_calc_exposure` in the source passes fowler number 4 (not 8)
to `fowler_calc_exposure`; the translation keeps that behaviour. -/
def fowler8_calc_exposure (frames : ℤ) (f : ℚ) : ℚ := fowler_calc_exposure frames f 4

/-- Function `fowler16_calc_exposure` in the source passes fowler number 4 (not 16)
to `fowler_calc_exposure`; the translation keeps that behaviour. -/
def fowler16_calc_exposure (frames : ℤ) (f : ℚ) : ℚ := fowler_calc_exposure frames f 4

/-- The `EXPOSURE_TIME_PER_FRAMES` dictionary. -/
def EXPOSURE_TIME_PER_FRAMES : Mode → ℤ → ℚ → ℚ
  | .CDS => cds_calc_exposure
  | .SSR => ssr_calc_exposure
  | .MEAN => mean_calc_exposure
  | .MEDIAN => mean_calc_exposure
  | .MODE => mean_calc_exposure
  | .MIN => ssr_calc_exposure
  | .MAX => ssr_calc_exposure
  | .FOWLER2 => fowler2_calc_exposure
  | .FOWLER4 => fowler4_calc_exposure
  | .FOWLER8 => fowler8_calc_exposure
  | .FOWLER16 => fowler16_calc_exposure

/-- The round trip of the claimed contract:
`exposureForFrames(framesForExposure(t), frameTime)` for one mode. -/
def roundTripExposure (m : Mode) (t f : ℚ) : ℚ :=
  EXPOSURE_TIME_PER_FRAMES m (FRAMES_PER_EXPOSURE_TIME m t f) f

/-! ### Round-trip bounds (claim C1) -/

theorem rt_bound (x f c y r : ℚ) (hf : 0 < f) (hy : y = x * f + c)
    (hr : r = (pyRound x : ℚ) * f + c) : |r - y| ≤ f := by
  subst hy
  subst hr
  have h := pyRound_close x
  have habs : (pyRound x : ℚ) * f + c - (x * f + c) = ((pyRound x : ℚ) - x) * f := by ring
  rw [habs, abs_mul, abs_of_pos hf]
  have hmul : |(pyRound x : ℚ) - x| * f ≤ (1/2) * f :=
    mul_le_mul_of_nonneg_right h hf.le
  linarith


/-- Claim C1 is false as stated: for `FOWLER2` at exposure time 0 the
clamped frame count 4 rounds back to 2 frame times, and for `FOWLER8` at
exposure time 20 (frame time 1) the exposure function, which passes
fowler number 4, returns 24 — both more than one frame time away from
the request. -/
theorem claim_C1_counterexample :
    ¬ |roundTripExposure Mode.FOWLER2 0 1 - 0| ≤ 1 ∧
      ¬ |roundTripExposure Mode.FOWLER8 20 1 - 20| ≤ 1 := by
  have h2 : roundTripExposure Mode.FOWLER2 0 1 = 2 := by
    simp only [roundTripExposure, EXPOSURE_TIME_PER_FRAMES, FRAMES_PER_EXPOSURE_TIME,
      fowler2_calc_exposure, fowler2_calc_frames, fowler_calc_exposure, fowler_calc_frames,
      ssr_calc_frames]
    rw [if_pos (by norm_num)]
    norm_num
  have h8 : roundTripExposure Mode.FOWLER8 20 1 = 24 := by
    simp only [roundTripExposure, EXPOSURE_TIME_PER_FRAMES, FRAMES_PER_EXPOSURE_TIME,
      fowler8_calc_exposure, fowler8_calc_frames, fowler_calc_exposure, fowler_calc_frames,
      ssr_calc_frames]
    rw [if_neg (by norm_num)]
    norm_num [pyRound, round_eq]
  constructor
  · rw [h2]
    norm_num
  · rw [h8]
    norm_num

/-- Claim C1, amended: composing `EXPOSURE_TIME_PER_FRAMES` with
`FRAMES_PER_EXPOSURE_TIME` stays within one `frameTime` of `t` for the
CDS, SSR, MEAN, MEDIAN, MODE, MIN and MAX modes at every `t ≥ 0`, and for
FOWLER2 and FOWLER4 whenever `t` is at least the Fowler threshold
`k * frameTime`; FOWLER8 and FOWLER16, whose exposure functions pass
fowler number 4, instead land within one `frameTime` of `t + 4*frameTime`
and `t + 12*frameTime` respectively (above their thresholds). -/
theorem claim_C1_amended (t f : ℚ) (_ht : 0 ≤ t) (hf : 0 < f) :
    |roundTripExposure Mode.CDS t f - t| ≤ f ∧
    |roundTripExposure Mode.SSR t f - t| ≤ f ∧
    |roundTripExposure Mode.MEAN t f - t| ≤ f ∧
    |roundTripExposure Mode.MEDIAN t f - t| ≤ f ∧
    |roundTripExposure Mode.MODE t f - t| ≤ f ∧
    |roundTripExposure Mode.MIN t f - t| ≤ f ∧
    |roundTripExposure Mode.MAX t f - t| ≤ f ∧
    (2 * f ≤ t → |roundTripExposure Mode.FOWLER2 t f - t| ≤ f) ∧
    (4 * f ≤ t → |roundTripExposure Mode.FOWLER4 t f - t| ≤ f) ∧
    (8 * f ≤ t → |roundTripExposure Mode.FOWLER8 t f - (t + 4 * f)| ≤ f) ∧
    (16 * f ≤ t → |roundTripExposure Mode.FOWLER16 t f - (t + 12 * f)| ≤ f) := by
  have hne : f ≠ 0 := hf.ne'
  have hssr : |roundTripExposure Mode.SSR t f - t| ≤ f := by
    refine rt_bound (t / f) f 0 t _ hf ?_ ?_
    · rw [div_mul_cancel₀ t hne, add_zero]
    · simp only [roundTripExposure, EXPOSURE_TIME_PER_FRAMES, FRAMES_PER_EXPOSURE_TIME,
        ssr_calc_exposure, ssr_calc_frames, add_zero]
  have hmean : |roundTripExposure Mode.MEAN t f - t| ≤ f := by
    refine rt_bound (t / f) f 0 t _ hf ?_ ?_
    · rw [div_mul_cancel₀ t hne, add_zero]
    · simp only [roundTripExposure, EXPOSURE_TIME_PER_FRAMES, FRAMES_PER_EXPOSURE_TIME,
        mean_calc_exposure, ssr_calc_exposure, mean_calc_frames, ssr_calc_frames]
      push_cast
      ring
  refine ⟨?_, hssr, hmean, hmean, hmean, hssr, hssr, ?_, ?_, ?_, ?_⟩
  · refine rt_bound (t / f) f 0 t _ hf ?_ ?_
    · rw [div_mul_cancel₀ t hne, add_zero]
    · simp only [roundTripExposure, EXPOSURE_TIME_PER_FRAMES, FRAMES_PER_EXPOSURE_TIME,
        cds_calc_exposure, cds_calc_frames, ssr_calc_frames]
      push_cast
      ring
  · intro h2
    have hcond : ¬ (t - f * ((2 : ℤ) : ℚ) < 0) := by push_cast; linarith
    refine rt_bound ((t - f * ((2 : ℤ) : ℚ)) / f) f (2 * f) t _ hf ?_ ?_
    · rw [div_mul_cancel₀ _ hne]; push_cast; ring
    · simp only [roundTripExposure, EXPOSURE_TIME_PER_FRAMES, FRAMES_PER_EXPOSURE_TIME,
        fowler2_calc_exposure, fowler2_calc_frames, fowler_calc_exposure, fowler_calc_frames,
        ssr_calc_frames, if_neg hcond]
      push_cast
      ring
  · intro h4
    have hcond : ¬ (t - f * ((4 : ℤ) : ℚ) < 0) := by push_cast; linarith
    refine rt_bound ((t - f * ((4 : ℤ) : ℚ)) / f) f (4 * f) t _ hf ?_ ?_
    · rw [div_mul_cancel₀ _ hne]; push_cast; ring
    · simp only [roundTripExposure, EXPOSURE_TIME_PER_FRAMES, FRAMES_PER_EXPOSURE_TIME,
        fowler4_calc_exposure, fowler4_calc_frames, fowler_calc_exposure, fowler_calc_frames,
        ssr_calc_frames, if_neg hcond]
      push_cast
      ring
  · intro h8
    have hcond : ¬ (t - f * ((8 : ℤ) : ℚ) < 0) := by push_cast; linarith
    refine rt_bound ((t - f * ((8 : ℤ) : ℚ)) / f) f (12 * f) (t + 4 * f) _ hf ?_ ?_
    · rw [div_mul_cancel₀ _ hne]; push_cast; ring
    · simp only [roundTripExposure, EXPOSURE_TIME_PER_FRAMES, FRAMES_PER_EXPOSURE_TIME,
        fowler8_calc_exposure, fowler8_calc_frames, fowler_calc_exposure, fowler_calc_frames,
        ssr_calc_frames, if_neg hcond]
      push_cast
      ring
  · intro h16
    have hcond : ¬ (t - f * ((16 : ℤ) : ℚ) < 0) := by push_cast; linarith
    refine rt_bound ((t - f * ((16 : ℤ) : ℚ)) / f) f (28 * f) (t + 12 * f) _ hf ?_ ?_
    · rw [div_mul_cancel₀ _ hne]; push_cast; ring
    · simp only [roundTripExposure, EXPOSURE_TIME_PER_FRAMES, FRAMES_PER_EXPOSURE_TIME,
        fowler16_calc_exposure, fowler16_calc_frames, fowler_calc_exposure, fowler_calc_frames,
        ssr_calc_frames, if_neg hcond]
      push_cast
      ring

/-- Witness for `claim_C1_amended` at `t = 20`, `f = 1`. -/
theorem claim_C1_witness :
    (0 : ℚ) ≤ 20 ∧ (0 : ℚ) < 1 ∧
      (|roundTripExposure Mode.CDS 20 1 - 20| ≤ 1 ∧
        |roundTripExposure Mode.SSR 20 1 - 20| ≤ 1 ∧
        |roundTripExposure Mode.MEAN 20 1 - 20| ≤ 1 ∧
        |roundTripExposure Mode.MEDIAN 20 1 - 20| ≤ 1 ∧
        |roundTripExposure Mode.MODE 20 1 - 20| ≤ 1 ∧
        |roundTripExposure Mode.MIN 20 1 - 20| ≤ 1 ∧
        |roundTripExposure Mode.MAX 20 1 - 20| ≤ 1 ∧
        (2 * 1 ≤ (20 : ℚ) → |roundTripExposure Mode.FOWLER2 20 1 - 20| ≤ 1) ∧
        (4 * 1 ≤ (20 : ℚ) → |roundTripExposure Mode.FOWLER4 20 1 - 20| ≤ 1) ∧
        (8 * 1 ≤ (20 : ℚ) → |roundTripExposure Mode.FOWLER8 20 1 - (20 + 4 * 1)| ≤ 1) ∧
        (16 * 1 ≤ (20 : ℚ) → |roundTripExposure Mode.FOWLER16 20 1 - (20 + 12 * 1)| ≤ 1)) :=
  ⟨by norm_num, by norm_num, claim_C1_amended 20 1 (by norm_num) (by norm_num)⟩


/-! ## Python list slicing and numpy elementwise operations

Frames are modelled as flat lists of pixel samples; a ramp is a list of
frames.  `pySlice l i j` is Python's `l[i:j]` with the usual clamping and
negative-index semantics (step 1). -/

/-- Normalise one Python slice endpoint against a list length: negative
endpoints count from the end, and both directions clamp into `[0, n]`. -/
def pySliceIdx (n : Nat) (i : Int) : Nat :=
  if i < 0 then (max ((n : Int) + i) 0).toNat else (min i (n : Int)).toNat

/-- Python `l[i:j]` (step 1). -/
def pySlice (l : List α) (i j : Int) : List α :=
  (l.take (pySliceIdx l.length j)).drop (pySliceIdx l.length i)

/-- numpy `stack.mean(axis=0)` over a list of equally shaped flat frames:
the elementwise arithmetic mean (numpy computes it in floating point; the
model uses exact rationals). -/
def npMeanAxis0 (frames : List (List ℚ)) : List ℚ :=
  match frames with
  | [] => []
  | f0 :: _ =>
    (List.range f0.length).map fun p =>
      ((frames.map fun fr => fr[p]!).sum) / (frames.length : ℚ)

/-- numpy elementwise subtraction of two equally shaped flat frames. -/
def npSub (a b : List ℚ) : List ℚ := List.zipWith (fun x y => x - y) a b

/-- Source `fowler_frame_reduce(images, fowler_number)` (utils/image.py):
`start = images[0:fowler_number].mean(axis=0)`,
`end = images[-1-fowler_number:-1].mean(axis=0)`, returns `end - start`.
Note the source's end slice `[-1-fowler_number:-1]` stops before the last
frame. -/
def fowler_frame_reduce (images : List (List ℚ)) (fowler_number : Nat) : List ℚ :=
  let start := npMeanAxis0 (pySlice images 0 (fowler_number : Int))
  let endMean := npMeanAxis0 (pySlice images (-1 - (fowler_number : Int)) (-1))
  npSub endMean start

/-- Source `fowler2_frame_reduce(images) = fowler_frame_reduce(images, 2)`. -/
def fowler2_frame_reduce (images : List (List ℚ)) : List ℚ :=
  fowler_frame_reduce images 2

/-- Claim C2 is wrong about the code: on the 8-frame single-pixel ramp
`[10,10,0,0,0,0,40,40]` — first two frames average 10, last two average
40 — `fowler2_frame_reduce` returns 10, not the claimed 30, because the
end slice `images[-1-2:-1]` averages frames 5 and 6 (values 0 and 40)
instead of the last two frames. -/
theorem claim_C2_code_bug :
    fowler2_frame_reduce [[10], [10], [0], [0], [0], [0], [40], [40]] = [10] ∧
      ([10] : List ℚ) ≠ [30] := by
  constructor
  · have hs1 : pySlice ([[10], [10], [0], [0], [0], [0], [40], [40]] : List (List ℚ))
        0 ((2 : Nat) : Int) = [[10], [10]] := rfl
    have hs2 : pySlice ([[10], [10], [0], [0], [0], [0], [40], [40]] : List (List ℚ))
        (-1 - ((2 : Nat) : Int)) (-1) = [[0], [40]] := rfl
    simp only [fowler2_frame_reduce, fowler_frame_reduce, hs1, hs2]
    simp only [npMeanAxis0, npSub]
    simp [List.range_succ]
    norm_num
  · intro h
    exact absurd (List.head_eq_of_cons_eq h) (by norm_num)


/-! ## numpy integer dtypes and `cds_frame_reduce`

`cds_frame_reduce(images)` inspects `str(images[0].dtype)`; for an
unsigned name it strips the `u`, reads the bit width with
`re.findall(r'\\d+', ...)` and doubles it in the name with `str.replace`,
then computes `images[-1].astype(T) - images[0].astype(T)`.  String
manipulation is modelled over character lists so that everything
evaluates inside Lean. -/

/-- Exceptions a modelled Python call can raise. -/
inductive PyExc
  | keyError | indexError | typeError | valueError | timeoutError
  deriving DecidableEq, Repr

/-- The numpy fixed-width integer dtypes. -/
inductive NpDtype
  | uint8 | uint16 | uint32 | uint64
  | int8 | int16 | int32 | int64
  deriving DecidableEq, Repr

/-- Name `str(array.dtype)` for the integer dtypes. -/
def dtypeName : NpDtype → String
  | .uint8 => "uint8"
  | .uint16 => "uint16"
  | .uint32 => "uint32"
  | .uint64 => "uint64"
  | .int8 => "int8"
  | .int16 => "int16"
  | .int32 => "int32"
  | .int64 => "int64"

/-- Whether a dtype is unsigned. -/
def dtypeUnsigned : NpDtype → Bool
  | .uint8 | .uint16 | .uint32 | .uint64 => true
  | _ => false

/-- Bit width of a dtype. -/
def dtypeBits : NpDtype → Nat
  | .uint8 | .int8 => 8
  | .uint16 | .int16 => 16
  | .uint32 | .int32 => 32
  | .uint64 | .int64 => 64

/-- Resolution `np.dtype(name)`: only names of existing numpy integer
dtypes resolve; any other name (such as `"int128"`) raises `TypeError`. -/
def parseDtype (s : String) : Option NpDtype :=
  [NpDtype.uint8, .uint16, .uint32, .uint64, .int8, .int16, .int32, .int64].find?
    fun d => dtypeName d = s

/-- Decimal digit characters of a natural number (Python `str(n)`),
driven by a structural fuel so it evaluates by `rfl`. -/
def natDigitsAux : Nat → Nat → List Char
  | 0, _ => []
  | fuel + 1, n =>
    if n < 10 then [Char.ofNat (48 + n)]
    else natDigitsAux fuel (n / 10) ++ [Char.ofNat (48 + n % 10)]

def natDigits (n : Nat) : List Char := natDigitsAux (n + 1) n

/-- Numeric value of a digit string (Python `int(s)` on digits). -/
def digitsToNat (cs : List Char) : Nat :=
  cs.foldl (fun acc c => acc * 10 + (c.toNat - 48)) 0

/-- Last match of the digit-run pattern, as in the source's findall call, for a string ending in a run of digits,
as every numpy integer dtype name does: the trailing digit run. -/
def lastDigitRun (cs : List Char) : String :=
  String.mk ((cs.reverse.takeWhile Char.isDigit).reverse)

/-- Python `str.replace(pat, rep)`: replace every occurrence of the
(non-empty) pattern left to right.  Structural fuel makes it reduce. -/
def strReplaceAux : Nat → List Char → List Char → List Char → List Char
  | 0, s, _, _ => s
  | fuel + 1, s, pat, rep =>
    match s with
    | [] => []
    | c :: rest =>
      if pat.length ≠ 0 ∧ pat.isPrefixOf (c :: rest) then
        rep ++ strReplaceAux fuel ((c :: rest).drop pat.length) pat rep
      else
        c :: strReplaceAux fuel rest pat rep

def strReplace (s pat rep : List Char) : List Char :=
  strReplaceAux s.length s pat rep

/-- The dtype-widening prologue of `cds_frame_reduce`: if the dtype name
starts with `u`, strip the `u`, read `precision` from the last digit run
and replace `str(precision)` by `str(precision*2)` in the name. -/
def cdsWidenTypeName (image_type : String) : String :=
  if ("u".toList).isPrefixOf image_type.toList then
    let stripped := image_type.toList.drop 1
    let precision := digitsToNat (lastDigitRun stripped).toList
    String.mk (strReplace stripped (natDigits precision) (natDigits (precision * 2)))
  else image_type

/-- Casting an integer into signed two's-complement width `bits`:
numpy `astype` wraps modulo `2 ^ bits` into the representable range. -/
def signedWrap (bits : Nat) (z : ℤ) : ℤ :=
  (z + 2 ^ (bits - 1)) % 2 ^ bits - 2 ^ (bits - 1)

/-- numpy `astype` conversion of one sample into dtype `d`. -/
def dtypeCast (d : NpDtype) (z : ℤ) : ℤ :=
  if dtypeUnsigned d then z % 2 ^ dtypeBits d else signedWrap (dtypeBits d) z

/-- Source `cds_frame_reduce(images)` on a ramp of integer frames with element
dtype `dtype`: widen the dtype name if unsigned, resolve it with numpy
(`TypeError` if the name does not exist), then return
`images[-1].astype(T) - images[0].astype(T)` with arithmetic wrapping
in `T`. -/
def cds_frame_reduce (dtype : NpDtype) (images : List (List ℤ)) :
    Except PyExc (List ℤ) :=
  let image_type := cdsWidenTypeName (dtypeName dtype)
  match parseDtype image_type with
  | none => .error .typeError
  | some T =>
    .ok (List.zipWith (fun a b => dtypeCast T (dtypeCast T a - dtypeCast T b))
      images.getLast! images.head!)

theorem signedWrap_eq_self (bits : Nat) (z : ℤ) (hb : 1 ≤ bits)
    (h1 : -(2 ^ (bits - 1)) ≤ z) (h2 : z < 2 ^ (bits - 1)) :
    signedWrap bits z = z := by
  unfold signedWrap
  have hsplit : (2 : ℤ) ^ bits = 2 ^ (bits - 1) * 2 := by
    rw [← pow_succ]
    congr 1
    omega
  rw [Int.emod_eq_of_lt (by linarith) (by rw [hsplit]; linarith)]
  ring

theorem zipWith_congr_mem {α β γ : Type _} (f g : α → β → γ) :
    ∀ (la : List α) (lb : List β),
      (∀ a ∈ la, ∀ b ∈ lb, f a b = g a b) →
      List.zipWith f la lb = List.zipWith g la lb := by
  intro la
  induction la with
  | nil => intro lb _; simp
  | cons a ta ih =>
    intro lb h
    cases lb with
    | nil => simp
    | cons b tb =>
      simp only [List.zipWith_cons_cons]
      rw [h a (by simp) b (by simp), ih tb ?_]
      intro x hx y hy
      exact h x (by simp [hx]) y (by simp [hy])

/-- For an unsigned source dtype whose doubled width exists, in-range
samples pass through `astype` and the wrapped subtraction unchanged. -/
theorem cds_frame_reduce_unsigned_exact (d T : NpDtype) (w : Nat)
    (hparse : parseDtype (cdsWidenTypeName (dtypeName d)) = some T)
    (hsigned : dtypeUnsigned T = false)
    (hbits : dtypeBits T = 2 * w) (hw : 1 ≤ w)
    (images : List (List ℤ))
    (hlast : ∀ x ∈ images.getLast!, 0 ≤ x ∧ x < 2 ^ w)
    (hhead : ∀ x ∈ images.head!, 0 ≤ x ∧ x < 2 ^ w) :
    cds_frame_reduce d images
      = .ok (List.zipWith (fun a b => a - b) images.getLast! images.head!) := by
  simp only [cds_frame_reduce, hparse]
  congr 1
  have hpow : (2 : ℤ) ^ w ≤ 2 ^ (2 * w - 1) := by
    apply pow_le_pow_right₀ (by norm_num)
    omega
  have hp : (0 : ℤ) ≤ 2 ^ (2 * w - 1) := by positivity
  have hcast : ∀ z : ℤ, 0 ≤ z → z < 2 ^ w → dtypeCast T z = z := by
    intro z hz0 hzw
    unfold dtypeCast
    rw [hsigned]
    simp only [Bool.false_eq_true, if_false, hbits]
    exact signedWrap_eq_self _ _ (by omega) (by linarith) (by linarith)
  apply zipWith_congr_mem
  intro a ha b hb
  have ha2 := hlast a ha
  have hb2 := hhead b hb
  rw [hcast a ha2.1 ha2.2, hcast b hb2.1 hb2.2]
  unfold dtypeCast
  rw [hsigned]
  simp only [Bool.false_eq_true, if_false, hbits]
  exact signedWrap_eq_self _ _ (by omega) (by linarith) (by linarith)


/-- Claim C7 is false for width-64 ramps: for uint64 frames the widening
pipeline produces the name `"int128"`, which numpy cannot resolve, so
`cds_frame_reduce` raises `TypeError` instead of subtracting in a widened
signed type. -/
theorem claim_C7_counterexample :
    cdsWidenTypeName "uint64" = "int128" ∧
      cds_frame_reduce NpDtype.uint64 [[100], [150]] = .error .typeError ∧
      cds_frame_reduce NpDtype.uint64 [[100], [150]] ≠ .ok [50] := by
  refine ⟨rfl, rfl, ?_⟩
  intro h
  have h2 : (Except.error PyExc.typeError : Except PyExc (List ℤ)) = Except.ok [50] :=
    Eq.trans (rfl : cds_frame_reduce NpDtype.uint64 [[100], [150]] = Except.error PyExc.typeError).symm h
  exact absurd h2 (by simp)

/-- Claim C7, amended: for ramps of unsigned width `w ∈ {8, 16, 32}`
(the widened name `int(2w)` exists), `cds_frame_reduce` widens to the
signed double-width dtype and returns the exact last-minus-first
difference with no unsigned wraparound; in particular on 16-bit unsigned
frames `[[100],[150]] ↦ [50]` and `[[150],[100]] ↦ [-50]`.  (For uint64
the widening fails; see the counterexample.) -/
theorem claim_C7_amended :
    (cdsWidenTypeName "uint8" = "int16" ∧ parseDtype "int16" = some NpDtype.int16) ∧
    (cdsWidenTypeName "uint16" = "int32" ∧ parseDtype "int32" = some NpDtype.int32) ∧
    (cdsWidenTypeName "uint32" = "int64" ∧ parseDtype "int64" = some NpDtype.int64) ∧
    (∀ images : List (List ℤ),
      (∀ x ∈ images.getLast!, 0 ≤ x ∧ x < 2 ^ 8) →
      (∀ x ∈ images.head!, 0 ≤ x ∧ x < 2 ^ 8) →
      cds_frame_reduce NpDtype.uint8 images
        = .ok (List.zipWith (fun a b => a - b) images.getLast! images.head!)) ∧
    (∀ images : List (List ℤ),
      (∀ x ∈ images.getLast!, 0 ≤ x ∧ x < 2 ^ 16) →
      (∀ x ∈ images.head!, 0 ≤ x ∧ x < 2 ^ 16) →
      cds_frame_reduce NpDtype.uint16 images
        = .ok (List.zipWith (fun a b => a - b) images.getLast! images.head!)) ∧
    (∀ images : List (List ℤ),
      (∀ x ∈ images.getLast!, 0 ≤ x ∧ x < 2 ^ 32) →
      (∀ x ∈ images.head!, 0 ≤ x ∧ x < 2 ^ 32) →
      cds_frame_reduce NpDtype.uint32 images
        = .ok (List.zipWith (fun a b => a - b) images.getLast! images.head!)) ∧
    cds_frame_reduce NpDtype.uint16 [[100], [150]] = .ok [50] ∧
    cds_frame_reduce NpDtype.uint16 [[150], [100]] = .ok [-50] := by
  refine ⟨⟨rfl, rfl⟩, ⟨rfl, rfl⟩, ⟨rfl, rfl⟩, ?_, ?_, ?_, rfl, rfl⟩
  · intro images h1 h2
    exact cds_frame_reduce_unsigned_exact NpDtype.uint8 NpDtype.int16 8 rfl rfl rfl
      (by norm_num) images h1 h2
  · intro images h1 h2
    exact cds_frame_reduce_unsigned_exact NpDtype.uint16 NpDtype.int32 16 rfl rfl rfl
      (by norm_num) images h1 h2
  · intro images h1 h2
    exact cds_frame_reduce_unsigned_exact NpDtype.uint32 NpDtype.int64 32 rfl rfl rfl
      (by norm_num) images h1 h2

/-- Witness: `claim_C7_amended` applied to the concrete 16-bit ramp
`[[3], [7]]`. -/
theorem claim_C7_witness :
    cds_frame_reduce NpDtype.uint16 [[3], [7]]
      = .ok (List.zipWith (fun a b => a - b)
          ([[3], [7]] : List (List ℤ)).getLast! ([[3], [7]] : List (List ℤ)).head!) :=
  (claim_C7_amended.2.2.2.2.1) [[3], [7]] (by decide) (by decide)


/-! ## Deinterleaving index partition

`BaseMACIE.gen_asic_data_frame_deinterleaving_array` (detector/macie/io.py)
builds, for `n_asics` active cameras, `blocks_per_frame` science read
blocks per camera frame and read-block size `science_read_block_size`, one
index array per camera: all global indices are reshaped into blocks of
`science_read_block_size` consecutive indices, and camera `i` receives the
blocks whose block index is `i` modulo `n_asics`, flattened in order.
When the `DEINTERLACE` setting is on, a second pass reshapes each
camera's array to `(frame_y, frame_x)`, applies
`ArrayImage.deinterlace` (utils/image.py) row by row — which reorders
the non-header columns by readout channel, even channels in order and
odd channels reversed — and flattens back (through a float intermediate
and an `int32` conversion, both value-preserving for indices). -/

/-- Row-wise column permutation of `ArrayImage.deinterlace` for `nch`
readout channels and `nheaders` science-header columns: header columns
pass through; in the remaining width, channel `i` takes source columns
`i, i + nch, i + 2*nch, ...` into the destination block
`[i*nch_pix, (i+1)*nch_pix)`, in order for even `i` and reversed
(destination slice with step -1) for odd `i`.  Modelled for the
geometries where `nch` divides the no-header width, the only ones on
which the numpy slice assignments are shape-compatible. -/
def deinterlace_row (nch nheaders : Nat) (row : List Nat) : List Nat :=
  let no_header_image := row.drop nheaders
  let nch_pix := no_header_image.length / nch
  let data_dein := (List.range nch).flatMap fun i =>
    if i % 2 = 0 then
      (List.range nch_pix).map fun k => no_header_image.getD (i + k * nch) 0
    else
      (List.range nch_pix).map fun j => no_header_image.getD (i + (nch_pix - 1 - j) * nch) 0
  row.take nheaders ++ data_dein

/-- The `DEINTERLACE` second pass on one camera's flat index array:
reshape to `(frame_y, frame_x)`, deinterlace each row, flatten back. -/
def deinterlace_array (nch nheaders frame_y frame_x : Nat) (arr : List Nat) : List Nat :=
  (List.range frame_y).flatMap fun row =>
    deinterlace_row nch nheaders ((arr.drop (row * frame_x)).take frame_x)

def gen_asic_data_frame_deinterleaving_array
    (n_asics blocks_per_frame science_read_block_size : Nat)
    (deinterlace : Bool) (nch nheaders frame_y frame_x : Nat) : List (List Nat) :=
  let deinterleaving_array :=
    (List.range n_asics).map fun i =>
      ((List.range (blocks_per_frame * n_asics)).filter
          (fun b => b % n_asics == i)).flatMap
        fun b => (List.range science_read_block_size).map fun j =>
          b * science_read_block_size + j
  if deinterlace then
    deinterleaving_array.map (deinterlace_array nch nheaders frame_y frame_x)
  else
    deinterleaving_array

/-- With `DEINTERLACE` off the generated array is the block-cyclic
partition alone. -/
theorem gen_deinterleaving_off
    (n_asics blocks_per_frame science_read_block_size nch nheaders frame_y frame_x : Nat) :
    gen_asic_data_frame_deinterleaving_array n_asics blocks_per_frame
        science_read_block_size false nch nheaders frame_y frame_x
      = (List.range n_asics).map fun i =>
          ((List.range (blocks_per_frame * n_asics)).filter
              (fun b => b % n_asics == i)).flatMap
            fun b => (List.range science_read_block_size).map fun j =>
              b * science_read_block_size + j := rfl

theorem filter_beq_range (n i : Nat) (h : i < n) :
    (List.range n).filter (fun x => x == i) = [i] := by
  induction n with
  | zero => omega
  | succ m ih =>
    rw [List.range_succ, List.filter_append]
    by_cases him : i = m
    · subst him
      have h1 : (List.range i).filter (fun x => x == i) = [] := by
        refine List.filter_eq_nil_iff.2 ?_
        intro a ha
        simp only [beq_iff_eq]
        have := List.mem_range.1 ha
        omega
      simp [h1]
    · have h2 : i < m := by omega
      rw [ih h2]
      simp [him, Ne.symm him]

theorem filter_mod_range (n m i : Nat) (h : i < n) :
    (List.range (m * n)).filter (fun b => b % n == i)
      = (List.range m).map (fun k => k * n + i) := by
  induction m with
  | zero => simp
  | succ k ih =>
    have hkn : (k + 1) * n = k * n + n := by ring
    rw [hkn, List.range_add, List.filter_append, ih, List.filter_map]
    have hcongr : (List.range n).filter ((fun b => b % n == i) ∘ (fun x => k * n + x))
        = (List.range n).filter (fun x => x == i) := by
      refine List.filter_congr ?_
      intro x hx
      have hxn := List.mem_range.1 hx
      simp only [Function.comp_apply]
      have hmod : (k * n + x) % n = x := by
        rw [Nat.mul_comm k n, Nat.mul_add_mod, Nat.mod_eq_of_lt hxn]
      rw [hmod]
    rw [hcongr, filter_beq_range n i h, List.range_succ, List.map_append]
    simp

/-- Camera `i`'s index array in closed form: position `p` holds global
index `((p / r) * n + i) * r + p % r`. -/
theorem deinterleaving_cam_eq (n r bpf i nch nheaders frame_y frame_x : Nat)
    (hr : 0 < r) (hi : i < n) :
    (gen_asic_data_frame_deinterleaving_array n bpf r false nch nheaders frame_y frame_x)[i]!
      = (List.range (bpf * r)).map (fun p => ((p / r) * n + i) * r + p % r) := by
  have hlen : i < ((List.range n).map fun i =>
      ((List.range (bpf * n)).filter (fun b => b % n == i)).flatMap
        fun b => (List.range r).map fun j => b * r + j).length := by
    simp [hi]
  rw [gen_deinterleaving_off]
  rw [getElem!_pos (List.map (fun i =>
      ((List.range (bpf * n)).filter (fun b => b % n == i)).flatMap
        fun b => (List.range r).map fun j => b * r + j) (List.range n)) i hlen]
  rw [List.getElem_map, List.getElem_range, filter_mod_range n bpf i hi,
    List.flatMap_map]
  clear hlen
  induction bpf with
  | zero => simp
  | succ k ih =>
    have hmul : (k + 1) * r = k * r + r := by ring
    have hblock : (List.map (fun j => (k * n + i) * r + j) (List.range r))
        = List.map ((fun p => (p / r * n + i) * r + p % r) ∘ (fun x => k * r + x))
            (List.range r) := by
      refine List.map_congr_left ?_
      intro x hx
      have hxr := List.mem_range.1 hx
      simp only [Function.comp_apply]
      have hdiv : (k * r + x) / r = k := by
        rw [Nat.mul_comm k r, Nat.mul_add_div hr, Nat.div_eq_of_lt hxr, Nat.add_zero]
      have hmod : (k * r + x) % r = x := by
        rw [Nat.mul_comm k r, Nat.mul_add_mod, Nat.mod_eq_of_lt hxr]
      rw [hdiv, hmod]
    rw [List.range_succ, List.flatMap_append, hmul, List.range_add, List.map_append, ← ih,
      List.map_map]
    simp only [List.flatMap_cons, List.flatMap_nil, List.append_nil]
    rw [hblock]

/-- Every member of camera `i`'s array has block index `≡ i (mod n)` and
is below the total buffer size. -/
theorem deinterleaving_mem_char (n r bpf i v nch nheaders frame_y frame_x : Nat)
    (hr : 0 < r) (hi : i < n)
    (hv : v ∈ (gen_asic_data_frame_deinterleaving_array n bpf r
      false nch nheaders frame_y frame_x)[i]!) :
    (v / r) % n = i ∧ v < bpf * n * r := by
  rw [deinterleaving_cam_eq n r bpf i nch nheaders frame_y frame_x hr hi] at hv
  obtain ⟨p, hp, hpv⟩ := List.mem_map.1 hv
  have hpr := List.mem_range.1 hp
  subst hpv
  have hdiv : (((p / r) * n + i) * r + p % r) / r = (p / r) * n + i := by
    rw [Nat.mul_comm _ r, Nat.mul_add_div hr, Nat.div_eq_of_lt (Nat.mod_lt _ hr),
      Nat.add_zero]
  have hmod2 : ((p / r) * n + i) % n = i := by
    rw [Nat.mul_comm _ n, Nat.mul_add_mod, Nat.mod_eq_of_lt hi]
  constructor
  · rw [hdiv, hmod2]
  · have hpbpf : p / r < bpf := (Nat.div_lt_iff_lt_mul hr).2 hpr
    have h1 : (p / r) * n + i < bpf * n := by
      calc (p / r) * n + i < (p / r) * n + n := by omega
      _ = (p / r + 1) * n := by ring
      _ ≤ bpf * n := Nat.mul_le_mul_right n hpbpf
    calc ((p / r) * n + i) * r + p % r
        < ((p / r) * n + i) * r + r := by
          have := Nat.mod_lt p hr
          omega
      _ = ((p / r) * n + i + 1) * r := by ring
      _ ≤ (bpf * n) * r := Nat.mul_le_mul_right r h1
      _ = bpf * n * r := by ring


/-- Claim C4 is false for the default configuration: with the
`DEINTERLACE` setting on (its default), the second pass permutes each
camera's columns, so the claimed per-camera position formula fails.  At
`camera_count = 4`, block size 8, total size 128, geometry 4 rows of 8
columns, 2 readout channels, no header columns: global index 1 should
sit in camera `(1/8) % 4 = 0` at position `((1/8)/4)*8 + 1 % 8 = 1`, but
the generated array holds index 2 there (the deinterlaced row begins
`0, 2, 4, 6, 7, 5, 3, 1`). -/
theorem claim_C4_counterexample :
    ((gen_asic_data_frame_deinterleaving_array 4 4 8 true 2 0 4 8)[(1 / 8) % 4]!)[
        ((1 / 8) / 4) * 8 + 1 % 8]? = some 2 ∧
      ((gen_asic_data_frame_deinterleaving_array 4 4 8 true 2 0 4 8)[(1 / 8) % 4]!)[
        ((1 / 8) / 4) * 8 + 1 % 8]? ≠ some 1 := by
  constructor
  · decide
  · decide

/-- Claim C4, amended: with channel-deinterlacing disabled
(`DEINTERLACE = false`; when it is enabled the second pass additionally
permutes each camera's columns), the generated partition assigns every
global buffer index `g` to camera `(g / r) % n` at per-camera position
`((g / r) / n) * r + g % r`; the per-camera arrays are pairwise disjoint
and their union is exactly `[0, blocks_per_frame * n * r)`. -/
theorem claim_C4_amended (n r bpf nch nheaders frame_y frame_x : Nat)
    (hn : 0 < n) (hr : 0 < r) :
    (∀ g, g < bpf * n * r →
        ((gen_asic_data_frame_deinterleaving_array n bpf r
            false nch nheaders frame_y frame_x)[(g / r) % n]!)[
          ((g / r) / n) * r + g % r]? = some g) ∧
    (∀ i j, i < n → j < n → i ≠ j → ∀ v,
        v ∈ (gen_asic_data_frame_deinterleaving_array n bpf r
          false nch nheaders frame_y frame_x)[i]! →
        v ∉ (gen_asic_data_frame_deinterleaving_array n bpf r
          false nch nheaders frame_y frame_x)[j]!) ∧
    (∀ g, (∃ i, i < n ∧ g ∈ (gen_asic_data_frame_deinterleaving_array n bpf r
          false nch nheaders frame_y frame_x)[i]!)
        ↔ g < bpf * n * r) := by
  have hpart1 : ∀ g, g < bpf * n * r →
      ((gen_asic_data_frame_deinterleaving_array n bpf r
          false nch nheaders frame_y frame_x)[(g / r) % n]!)[
        ((g / r) / n) * r + g % r]? = some g := by
    intro g hg
    have hc : g / r % n < n := Nat.mod_lt _ hn
    have hj : g % r < r := Nat.mod_lt _ hr
    rw [deinterleaving_cam_eq n r bpf _ nch nheaders frame_y frame_x hr hc]
    have hbn : g / r < bpf * n := by
      refine (Nat.div_lt_iff_lt_mul hr).2 ?_
      calc g < bpf * n * r := hg
        _ = bpf * n * r := rfl
    have hk : g / r / n < bpf := (Nat.div_lt_iff_lt_mul hn).2 hbn
    have hpr : (g / r / n) * r + g % r < bpf * r := by
      calc (g / r / n) * r + g % r < (g / r / n) * r + r := by omega
        _ = (g / r / n + 1) * r := by ring
        _ ≤ bpf * r := Nat.mul_le_mul_right r hk
    rw [List.getElem?_map, List.getElem?_range hpr]
    simp only [Option.map_some']
    have hpdiv : ((g / r / n) * r + g % r) / r = g / r / n := by
      rw [Nat.mul_comm, Nat.mul_add_div hr, Nat.div_eq_of_lt hj, Nat.add_zero]
    have hpmod : ((g / r / n) * r + g % r) % r = g % r := by
      rw [Nat.mul_comm, Nat.mul_add_mod, Nat.mod_eq_of_lt hj]
    rw [hpdiv, hpmod, Nat.div_add_mod' (g / r) n, Nat.div_add_mod' g r]
  refine ⟨hpart1, ?_, ?_⟩
  · intro i j hi hj hij v hvi hvj
    have h1 := (deinterleaving_mem_char n r bpf i v nch nheaders frame_y frame_x hr hi hvi).1
    have h2 := (deinterleaving_mem_char n r bpf j v nch nheaders frame_y frame_x hr hj hvj).1
    exact hij (h1.symm.trans h2)
  · intro g
    constructor
    · rintro ⟨i, hi, hv⟩
      exact (deinterleaving_mem_char n r bpf i g nch nheaders frame_y frame_x hr hi hv).2
    · intro hg
      exact ⟨g / r % n, Nat.mod_lt _ hn, List.getElem?_mem (hpart1 g hg)⟩

/-- Witness: `claim_C4_amended` for 4 cameras, block size 8, 4 blocks
per camera frame (total buffer size 128) and deinterlacing off, applied
at global index 77, which lands in camera `(77 / 8) % 4 = 1` at position
`((77 / 8) / 4) * 8 + 77 % 8 = 21`. -/
theorem claim_C4_witness :
    (0 < 4 ∧ 0 < 8 ∧ 77 < 4 * 4 * 8) ∧
      ((gen_asic_data_frame_deinterleaving_array 4 4 8 false 2 0 4 8)[(77 / 8) % 4]!)[
        ((77 / 8) / 4) * 8 + 77 % 8]? = some 77 :=
  ⟨⟨by norm_num, by norm_num, by norm_num⟩,
    (claim_C4_amended 4 8 4 2 0 4 8 (by norm_num) (by norm_num)).1 77 (by norm_num)⟩


/-! ## Skip-frame schedule (`BaseMACIE.start`)

`start` computes `skip_frames = ssr_calc_frames(skip_time, frameTime)`
and builds `skips`: starting from `remaining_frames = science_frames`,
while `remaining_frames > 0` it appends one kept entry (`False`) and
decrements, then appends `skip_frames` skipped entries (`True`)
decrementing after each; finally `skips = skips[:science_frames]`. -/

/-- The `while remaining_frames > 0` schedule loop.  Python's counter can
go negative inside an iteration; natural subtraction stops the recursion
at the same point because both counters end the loop at `≤ 0`, and the
entries appended within an iteration do not depend on the counter. -/
def gen_skips_loop : Nat → Nat → List Bool
  | 0, _ => []
  | remaining + 1, skip_frames =>
    false :: (List.replicate skip_frames true
      ++ gen_skips_loop (remaining - skip_frames) skip_frames)

/-- The skip schedule built by `start`: the loop output truncated to the
computed science-frame count. -/
def gen_skips (science_frames skip_frames : Nat) : List Bool :=
  (gen_skips_loop science_frames skip_frames).take science_frames

/-- One period of the schedule: a kept entry followed by `k` skips. -/
theorem map_range_period (k : Nat) :
    (List.range (k + 1)).map (fun i => decide (i % (k + 1) ≠ 0))
      = false :: List.replicate k true := by
  rw [List.range_succ_eq_map]
  simp only [List.map_cons, List.map_map]
  refine congrArg₂ _ ?_ ?_
  · simp
  · refine List.eq_replicate_iff.2 ⟨by simp, ?_⟩
    intro b hb
    obtain ⟨a, ha, hab⟩ := List.mem_map.1 hb
    have hak := List.mem_range.1 ha
    have : (a + 1) % (k + 1) = a + 1 := Nat.mod_eq_of_lt (by omega)
    simp only [Function.comp_apply, Nat.succ_eq_add_one, this] at hab
    simp only [← hab, decide_eq_true_eq]
    omega

/-- The untruncated loop output consists of whole periods: one period per
started group, `(m + k) / (k + 1)` groups for `m` requested frames. -/
theorem gen_skips_loop_eq (k : Nat) :
    ∀ m, gen_skips_loop m k
      = (List.range ((m + k) / (k + 1) * (k + 1))).map
          (fun i => decide (i % (k + 1) ≠ 0)) := by
  intro m
  induction m using Nat.strong_induction_on with
  | _ m ih =>
    match m with
    | 0 =>
      have h0 : k / (k + 1) = 0 := Nat.div_eq_of_lt (by omega)
      simp [gen_skips_loop, h0]
    | r + 1 =>
      have hrec := ih (r - k) (by omega)
      have hG : (r + 1 + k) / (k + 1) = (r - k + k) / (k + 1) + 1 := by
        by_cases hrk : k ≤ r
        · have h1 : r - k + k = r := by omega
          have h2 : r + 1 + k = r + (k + 1) := by omega
          rw [h1, h2, Nat.add_div_right r (by omega)]
        · have h1 : r - k = 0 := by omega
          have h2 : (0 + k) / (k + 1) = 0 := Nat.div_eq_of_lt (by omega)
          have h4 : r + 1 + k = r + (k + 1) := by omega
          have h3 : (r + 1 + k) / (k + 1) = 1 := by
            rw [h4, Nat.add_div_right r (by omega), Nat.div_eq_of_lt (by omega)]
          rw [h1, h2, h3]
      rw [gen_skips_loop, hrec, hG]
      have hsplit : ((r - k + k) / (k + 1) + 1) * (k + 1)
          = (k + 1) + (r - k + k) / (k + 1) * (k + 1) := by ring
      rw [hsplit, List.range_add, List.map_append, map_range_period]
      simp only [List.cons_append, List.map_map]
      refine congrArg₂ _ rfl (congrArg₂ _ rfl ?_)
      refine (List.map_congr_left ?_).symm
      intro x _
      simp only [Function.comp_apply, Nat.add_mod_left]

/-- Closed form of the truncated schedule: entry `i` is kept exactly when
`i` is a multiple of `skip_frames + 1`. -/
theorem gen_skips_eq (science_frames skip_frames : Nat) :
    gen_skips science_frames skip_frames
      = (List.range science_frames).map
          (fun i => decide (i % (skip_frames + 1) ≠ 0)) := by
  unfold gen_skips
  rw [gen_skips_loop_eq skip_frames science_frames, ← List.map_take, List.take_range]
  have hge : science_frames
      ≤ (science_frames + skip_frames) / (skip_frames + 1) * (skip_frames + 1) := by
    have hdm := Nat.div_add_mod (science_frames + skip_frames) (skip_frames + 1)
    have hrem := Nat.mod_lt (science_frames + skip_frames)
      (show 0 < skip_frames + 1 by omega)
    have hcomm : (skip_frames + 1) * ((science_frames + skip_frames) / (skip_frames + 1))
        = (science_frames + skip_frames) / (skip_frames + 1) * (skip_frames + 1) := by ring
    linarith [hdm, hrem, hcomm]
  rw [min_eq_left hge]


/-- Claim C5's particular case is false: for a computed science-frame
count of 10 with `skipTime = 2 * frameTime` (so `skip_frames = 2`) the
schedule is truncated to 10 total entries containing only 4 kept
entries, not 10 kept entries. -/
theorem claim_C5_counterexample :
    (gen_skips 10 2).length = 10 ∧ (gen_skips 10 2).count false = 4 ∧
      (gen_skips 10 2).count false ≠ 10 := by
  have h := gen_skips_eq 10 2
  rw [h]
  refine ⟨by decide, by decide, by decide⟩

/-- Claim C5, amended: the schedule is the periodic sequence in which
entry `i` is kept (`False`) exactly when `i` is a multiple of
`skip_frames + 1` — each kept entry is followed by `skip_frames` skipped
entries — truncated to `science_frames` TOTAL entries; `skip_frames` is
`round(skipTime / frameTime)`, which is 2 for `skipTime = 2*frameTime`;
for science-frame count 10 this gives 10 total entries with 2 skips
between consecutive kept entries and only 4 kept entries. -/
theorem claim_C5_amended (science_frames skip_frames : Nat) :
    gen_skips science_frames skip_frames
      = (List.range science_frames).map
          (fun i => decide (i % (skip_frames + 1) ≠ 0)) ∧
    (∀ f : ℚ, 0 < f → ssr_calc_frames (2 * f) f = 2) ∧
    gen_skips 10 2
      = [false, true, true, false, true, true, false, true, true, false] := by
  refine ⟨gen_skips_eq science_frames skip_frames, ?_, ?_⟩
  · intro f hf
    have h2 : 2 * f / f = 2 := by
      field_simp
    rw [ssr_calc_frames, h2]
    norm_num [pyRound, round_eq]
  · rw [gen_skips_eq 10 2]
    decide

/-- Witness: `claim_C5_amended` at `science_frames = 10`,
`skip_frames = 2`, with the `skipTime = 2*frameTime` part instantiated at
`frameTime = 1`. -/
theorem claim_C5_witness :
    (0 : ℚ) < 1 ∧ ssr_calc_frames (2 * 1) 1 = 2 :=
  ⟨by norm_num, (claim_C5_amended 10 2).2.1 1 (by norm_num)⟩


/-! ## Post-processing join loop (`BaseMACIE.handle_frames`)

`handle_frames` starts one thread per camera (named camera name + frame
number + reset flag) and then runs
`for thread in threads: thread.join(timeout=FRAMETIMESEC*5)`,
raising `TimeoutError(thread.name + ' thread is taking too long, moving on')`
when `thread.is_alive()` still holds.  A thread is modelled by its name and
whether it is still alive when its join times out; the loop performs no
cancellation, so threads keep running and their completed work stays
persisted regardless of the raise. -/

/-- One per-camera post-processing thread at its join point. -/
structure CamThread where
  name : String
  aliveAfterJoin : Bool
  deriving DecidableEq, Repr

/-- Result of the join loop: the threads waited on, in order, and the
raised `TimeoutError` message if any. -/
structure JoinResult where
  joined : List String
  raised : Option String
  deriving DecidableEq, Repr

/-- The join loop of `handle_frames` (and the identical loop in `start`):
threads are joined in list order and the loop raises at the FIRST thread
still alive, leaving the remaining threads unjoined and uncancelled. -/
def joinThreads : List CamThread → JoinResult
  | [] => ⟨[], none⟩
  | t :: rest =>
    if t.aliveAfterJoin then
      ⟨[t.name], some (t.name ++ " thread is taking too long, moving on")⟩
    else
      let r := joinThreads rest
      ⟨t.name :: r.joined, r.raised⟩

/-- Claim C6 is false about the raise point: with cameras 0, 1, 3 fast
and camera 2 stalled, the `TimeoutError` names camera 2 but is raised
right after camera 2's join — camera 3 has been neither joined nor
recorded, so the error is not raised "after all cameras have finished or
been recorded as slow". -/
theorem claim_C6_counterexample :
    joinThreads [⟨"cam0", false⟩, ⟨"cam1", false⟩, ⟨"cam2", true⟩, ⟨"cam3", false⟩]
      = ⟨["cam0", "cam1", "cam2"],
          some ("cam2" ++ " thread is taking too long, moving on")⟩ ∧
      "cam3" ∉ (joinThreads
        [⟨"cam0", false⟩, ⟨"cam1", false⟩, ⟨"cam2", true⟩, ⟨"cam3", false⟩]).joined := by
  refine ⟨rfl, ?_⟩
  decide

/-- Claim C6, amended: a stalled task raises a `TimeoutError` naming that
task, thrown immediately at the first stalled camera in join order —
cameras earlier in the order have all been joined, cameras later are not
waited for — and no task is cancelled (the model's join loop only reads
thread state).  When no camera stalls, every camera is joined and nothing
is raised. -/
theorem claim_C6_amended (pre post : List CamThread) (t : CamThread)
    (hpre : ∀ u ∈ pre, u.aliveAfterJoin = false)
    (ht : t.aliveAfterJoin = true) :
    joinThreads (pre ++ t :: post)
      = ⟨pre.map CamThread.name ++ [t.name],
          some (t.name ++ " thread is taking too long, moving on")⟩ ∧
    (∀ ts : List CamThread, (∀ u ∈ ts, u.aliveAfterJoin = false) →
        joinThreads ts = ⟨ts.map CamThread.name, none⟩) := by
  constructor
  · induction pre with
    | nil => simp [joinThreads, ht]
    | cons u us ih =>
      have hu : u.aliveAfterJoin = false := hpre u (by simp)
      have hrest := ih fun v hv => hpre v (by simp [hv])
      simp [joinThreads, hu, hrest]
  · intro ts hts
    induction ts with
    | nil => rfl
    | cons u us ih =>
      have hu : u.aliveAfterJoin = false := hts u (by simp)
      have hrest := ih fun v hv => hts v (by simp [hv])
      simp [joinThreads, hu, hrest]

/-- Witness: `claim_C6_amended` with camera `"a"` fast, `"b"` stalled and
`"c"` after the stall. -/
theorem claim_C6_witness :
    joinThreads [⟨"a", false⟩, ⟨"b", true⟩, ⟨"c", false⟩]
      = ⟨["a", "b"], some ("b" ++ " thread is taking too long, moving on")⟩ :=
  (claim_C6_amended [⟨"a", false⟩] [⟨"c", false⟩] ⟨"b", true⟩ (by decide) rfl).1


/-! ## Exposure-time-remaining updates in `start`

`start` sets `total_frames = reset_frames + science_frames`, calls
`status.update_exposure_time_remaining(total_frames * FRAMETIMESEC)`, and
then, after capturing each reset frame and each science frame, executes
`total_frames -= 1` followed by
`status.update_exposure_time_remaining(total_frames * FRAMETIMESEC)`.
The reset-frame loop (`reset_frames` iterations) and the science-frame
loop (`len(skips) = science_frames` iterations) perform the identical
update, so the written values form one countdown. -/

/-- The countdown of values passed to `update_exposure_time_remaining`,
first argument = the current `total_frames`. -/
def exposure_time_writes : Nat → ℚ → List ℚ
  | 0, f => [(0 : ℚ) * f]
  | n + 1, f => (((n : ℚ) + 1) * f) :: exposure_time_writes n f

/-- All exposure-time-remaining values written during one `start` call. -/
def start_time_remaining_trace (reset_frames science_frames : Nat) (f : ℚ) : List ℚ :=
  exposure_time_writes (reset_frames + science_frames) f

theorem exposure_time_writes_length (n : Nat) (f : ℚ) :
    (exposure_time_writes n f).length = n + 1 := by
  induction n with
  | zero => rfl
  | succ m ih => simp [exposure_time_writes, ih]

theorem exposure_time_writes_get (f : ℚ) :
    ∀ n i, i ≤ n → (exposure_time_writes n f)[i]! = ((n - i : Nat) : ℚ) * f := by
  intro n
  induction n with
  | zero =>
    intro i hi
    interval_cases i
    rfl
  | succ m ih =>
    intro i hi
    match i with
    | 0 =>
      simp [exposure_time_writes]
    | j + 1 =>
      have hj : j ≤ m := by omega
      have htail : (exposure_time_writes (m + 1) f)[j + 1]!
          = (exposure_time_writes m f)[j]! := by
        simp [exposure_time_writes]
      rw [htail, ih j hj]
      congr 2
      omega

/-- Claim C8: during one exposure the `ExposureTimeRemaining` value
written to the status strictly decreases by exactly one `frameTime` after
each captured frame (reset or science) and never increases between its
initialization and the end of the capture loop. -/
theorem claim_C8 (reset_frames science_frames : Nat) (f : ℚ) (hf : 0 < f) :
    (start_time_remaining_trace reset_frames science_frames f).length
        = reset_frames + science_frames + 1 ∧
    (∀ i, i < reset_frames + science_frames →
        (start_time_remaining_trace reset_frames science_frames f)[i + 1]!
          = (start_time_remaining_trace reset_frames science_frames f)[i]! - f) ∧
    (∀ i, i < reset_frames + science_frames →
        (start_time_remaining_trace reset_frames science_frames f)[i + 1]!
          < (start_time_remaining_trace reset_frames science_frames f)[i]!) ∧
    (∀ i j, i ≤ j → j ≤ reset_frames + science_frames →
        (start_time_remaining_trace reset_frames science_frames f)[j]!
          ≤ (start_time_remaining_trace reset_frames science_frames f)[i]!) := by
  have hstep : ∀ i, i < reset_frames + science_frames →
      (start_time_remaining_trace reset_frames science_frames f)[i + 1]!
        = (start_time_remaining_trace reset_frames science_frames f)[i]! - f := by
    intro i hi
    unfold start_time_remaining_trace
    rw [exposure_time_writes_get f _ _ (by omega), exposure_time_writes_get f _ _ (by omega)]
    have hcast : ((reset_frames + science_frames - (i + 1) : Nat) : ℚ)
        = ((reset_frames + science_frames - i : Nat) : ℚ) - 1 := by
      have h1 : reset_frames + science_frames - (i + 1)
          = (reset_frames + science_frames - i) - 1 := by omega
      have h2 : 1 ≤ reset_frames + science_frames - i := by omega
      rw [h1, Nat.cast_sub h2, Nat.cast_one]
    rw [hcast]
    ring
  refine ⟨exposure_time_writes_length _ f, hstep, ?_, ?_⟩
  · intro i hi
    rw [hstep i hi]
    linarith
  · intro i j hij hj
    unfold start_time_remaining_trace
    rw [exposure_time_writes_get f _ _ hj, exposure_time_writes_get f _ _ (by omega)]
    have hsub : reset_frames + science_frames - j ≤ reset_frames + science_frames - i := by
      omega
    have hcast : ((reset_frames + science_frames - j : Nat) : ℚ)
        ≤ ((reset_frames + science_frames - i : Nat) : ℚ) := by
      exact_mod_cast hsub
    exact mul_le_mul_of_nonneg_right hcast hf.le

/-- Witness: `claim_C8` for 1 reset frame, 2 science frames, frame time 1,
checked at the first captured frame. -/
theorem claim_C8_witness :
    (0 : ℚ) < 1 ∧
      (start_time_remaining_trace 1 2 1)[0 + 1]!
        = (start_time_remaining_trace 1 2 1)[0]! - 1 :=
  ⟨by norm_num, (claim_C8 1 2 1 (by norm_num)).2.1 0 (by norm_num)⟩


/-! ## Shared status (`asdetector/utils/status.py`)

A `Status` object holds the in-memory dict `self.status` and a
`JSONHandler` on the durable status file.  In the source,
`update_command_complete` and `update_current_command` call
`save_dict_to_json` (and `update_current_command` first RELOADS
`self.status` from the file via `get_status`), while in the five other
mutators the `save_dict_to_json` call is commented out, so they touch
only the in-memory dict. -/

/-- The status-document fields touched by the `Status` mutators;
per-camera collections are keyed by camera number (`'CAMERA{n}'`). -/
structure StatusDict where
  currentCommand : String
  commandStartTime : String
  commandComplete : Bool
  commandCompleteTime : String
  exposureTimeRemaining : ℚ
  totalFrameCount : ℤ
  exposureFrames : List (Nat × List String)
  intermediateReducedFrames : List (Nat × List String)
  finalReducedFrame : List (Nat × String)
  deriving DecidableEq, Repr

/-- A `Status` object: in-memory dict plus the durable JSON file. -/
structure StatusState where
  mem : StatusDict
  file : StatusDict
  deriving DecidableEq, Repr

/-- Operation of appending to one camera's list in the camera-keyed association list. -/
def appendAtCam (l : List (Nat × List String)) (cam : Nat) (x : String) :
    List (Nat × List String) :=
  l.map fun p => if p.1 = cam then (p.1, p.2 ++ [x]) else p

/-- Operation of setting one camera's entry in the camera-keyed association list. -/
def setAtCam (l : List (Nat × String)) (cam : Nat) (x : String) :
    List (Nat × String) :=
  l.map fun p => if p.1 = cam then (p.1, x) else p

/-- Source `update_exposure_time_remaining`: assigns
`self.status['ExposureTimeRemaining']`; the file write is commented out. -/
def update_exposure_time_remaining (s : StatusState) (exposure_time : ℚ) : StatusState :=
  { s with mem := { s.mem with exposureTimeRemaining := exposure_time } }

/-- Source `update_total_frame_count`: in-memory only (file write commented out). -/
def update_total_frame_count (s : StatusState) (frame_count : ℤ) : StatusState :=
  { s with mem := { s.mem with totalFrameCount := frame_count } }

/-- Source `update_exposure_frames`: appends to the camera's in-memory list
(file write commented out). -/
def update_exposure_frames (s : StatusState) (frame_file : String)
    (camera_number : Nat) : StatusState :=
  { s with mem := { s.mem with
      exposureFrames := appendAtCam s.mem.exposureFrames camera_number frame_file } }

/-- Source `update_intermediate_reduced_frame_frames`: appends to the camera's
in-memory list (file write commented out). -/
def update_intermediate_reduced_frame_frames (s : StatusState) (frame_file : String)
    (camera_number : Nat) : StatusState :=
  { s with mem := { s.mem with
      intermediateReducedFrames :=
        appendAtCam s.mem.intermediateReducedFrames camera_number frame_file } }

/-- Source `update_final_reduced_exposure`: sets the camera's in-memory entry
(file write commented out). -/
def update_final_reduced_exposure (s : StatusState) (frame_file : String)
    (camera_number : Nat) : StatusState :=
  { s with mem := { s.mem with
      finalReducedFrame := setAtCam s.mem.finalReducedFrame camera_number frame_file } }

/-- Source `update_command_complete(complete=True)`: sets `CommandComplete` and
`CommandCompleteTime = now` on the in-memory dict and writes the dict
through `save_dict_to_json`. -/
def update_command_complete (s : StatusState) (complete : Bool) (now : String) : StatusState :=
  let m := { s.mem with commandComplete := complete, commandCompleteTime := now }
  { mem := m, file := m }

/-- Source `update_current_command(command)`: `gen_status_file()`
(utils/files.py) archives the current status file if present and then
ALWAYS overwrites it with `status_template.json`; `get_status` next
reloads `self.status` from the (now template) file, after which
`CurrentCommand` and `CommandStartTime = now` are set and written
through.  Both the previous in-memory dict and the previous file
contents are discarded.  The template document itself is data outside
the sources under verification, so it is passed in as `template`. -/
def update_current_command (_s : StatusState) (command : String) (now : String)
    (template : StatusDict) : StatusState :=
  let m := { template with currentCommand := command, commandStartTime := now }
  { mem := m, file := m }

/-- A concrete status state used for concrete evaluations: the file
shows 7 seconds remaining. -/
def sampleStatusDict : StatusDict :=
  ⟨"", "", false, "", 7, 0, [(0, [])], [(0, [])], [(0, "")]⟩

def sampleStatusState : StatusState := ⟨sampleStatusDict, sampleStatusDict⟩

/-- Claim C9 is false: `update_exposure_time_remaining` (like the other
per-exposure mutators) changes only the in-memory dict — its file write
is commented out — so a poller reading the durable file still sees the
old value. -/
theorem claim_C9_counterexample :
    (update_exposure_time_remaining sampleStatusState 3).mem.exposureTimeRemaining = 3 ∧
    (update_exposure_time_remaining sampleStatusState 3).file = sampleStatusState.file ∧
    (update_exposure_time_remaining sampleStatusState 3).file.exposureTimeRemaining ≠ 3 := by
  refine ⟨rfl, rfl, ?_⟩
  show (7 : ℚ) ≠ 3
  norm_num

/-- Claim C9, amended: only `update_command_complete` and
`update_current_command` write through to the durable status document;
the five per-exposure mutators (exposure-time remaining, total frame
count, per-camera exposure frames, intermediate and final reduced
entries) update only the in-memory dict and leave the file unchanged, so
external pollers do not observe them.  `update_current_command`
moreover resets the file to the status template (via `gen_status_file`)
before reloading, discarding both the in-memory-only changes and the
previous file contents. -/
theorem claim_C9_amended (s : StatusState) (t : ℚ) (n : ℤ) (ff : String) (cam : Nat)
    (c : Bool) (cmd now : String) (tmpl : StatusDict) :
    ((update_exposure_time_remaining s t).mem.exposureTimeRemaining = t ∧
      (update_exposure_time_remaining s t).file = s.file) ∧
    ((update_total_frame_count s n).mem.totalFrameCount = n ∧
      (update_total_frame_count s n).file = s.file) ∧
    ((update_exposure_frames s ff cam).mem.exposureFrames
        = appendAtCam s.mem.exposureFrames cam ff ∧
      (update_exposure_frames s ff cam).file = s.file) ∧
    ((update_intermediate_reduced_frame_frames s ff cam).mem.intermediateReducedFrames
        = appendAtCam s.mem.intermediateReducedFrames cam ff ∧
      (update_intermediate_reduced_frame_frames s ff cam).file = s.file) ∧
    ((update_final_reduced_exposure s ff cam).mem.finalReducedFrame
        = setAtCam s.mem.finalReducedFrame cam ff ∧
      (update_final_reduced_exposure s ff cam).file = s.file) ∧
    ((update_command_complete s c now).file = (update_command_complete s c now).mem ∧
      (update_command_complete s c now).file.commandComplete = c ∧
      (update_command_complete s c now).file.commandCompleteTime = now) ∧
    ((update_current_command s cmd now tmpl).file
        = (update_current_command s cmd now tmpl).mem ∧
      (update_current_command s cmd now tmpl).file.currentCommand = cmd ∧
      (update_current_command s cmd now tmpl).file.commandStartTime = now ∧
      (update_current_command s cmd now tmpl).mem.exposureTimeRemaining
        = tmpl.exposureTimeRemaining) :=
  ⟨⟨rfl, rfl⟩, ⟨rfl, rfl⟩, ⟨rfl, rfl⟩, ⟨rfl, rfl⟩, ⟨rfl, rfl⟩,
    ⟨rfl, rfl, rfl⟩, ⟨rfl, rfl, rfl, rfl⟩⟩


/-! ## Command dispatch (`asdetector/interface/interface.py`)

`execute_command` uppercases the first token, calls
`status.update_current_command(command)` unless the command is in
`skip_updates = {'STATUS'}`, then constructs and runs the command object
inside `try`: on success, on `ConnectionAbortedError` and on any other
`Exception` it calls `status.update_command_complete()` (again unless in
`skip_updates`) before returning, re-raising, or — depending on the
`ERRORNAK` setting — returning the traceback or raising
`ExecutionError`.  An unknown command name raises `KeyError` inside the
`try`, which follows the generic-`Exception` path. -/

/-- The command tokens of the `COMMANDS` registry plus an unknown token
(whose lookup raises `KeyError`). -/
inductive Command
  | OPEN | INIT | START | CLOSE | TEST | STATUS | MODE
  | UNKNOWN (token : String)
  deriving DecidableEq, Repr

def commandName : Command → String
  | .OPEN => "OPEN"
  | .INIT => "INIT"
  | .START => "START"
  | .CLOSE => "CLOSE"
  | .TEST => "TEST"
  | .STATUS => "STATUS"
  | .MODE => "MODE"
  | .UNKNOWN token => token

/-- Whether the token is a key of `COMMANDS`. -/
def commandKnown : Command → Bool
  | .UNKNOWN _ => false
  | _ => true

/-- Set `skip_updates` containing only the STATUS command. -/
def skip_updates : List Command := [Command.STATUS]

/-- How `tcs_command.execute_command()` ends: a returned response, a
raised `ConnectionAbortedError`, or any other raised `Exception`. -/
inductive ExecOutcome
  | ok (response : String)
  | connAborted
  | raised
  deriving DecidableEq, Repr

/-- What `execute_command` itself does at its exit. -/
inductive CommandResult
  | returned (response : String)
  | raisedConnAborted
  | raisedExecutionError
  deriving DecidableEq, Repr

/-- Source `execute_command(interface_command)` for a parsed command token:
`run` is the behaviour of the command object's `execute_command()` and
`errornak` the `ERRORNAK` setting; `now` stands for `dt.now()` and
`template` for the contents of `status_template.json` used by
`update_current_command`'s file reset.  Returns the final status state
and the call's outcome. -/
def execute_command (cmd : Command) (run : ExecOutcome) (errornak : Bool)
    (now : String) (template : StatusDict) (s : StatusState) :
    StatusState × CommandResult :=
  let s1 := if cmd ∈ skip_updates then s
    else update_current_command s (commandName cmd) now template
  let outcome := if commandKnown cmd then run else ExecOutcome.raised
  match outcome with
  | .ok resp =>
    (if cmd ∈ skip_updates then s1 else update_command_complete s1 true now, .returned resp)
  | .connAborted =>
    (if cmd ∈ skip_updates then s1 else update_command_complete s1 true now,
      .raisedConnAborted)
  | .raised =>
    let s2 := if cmd ∈ skip_updates then s1 else update_command_complete s1 true now
    if errornak then (s2, .raisedExecutionError) else (s2, .returned "traceback")

/-- Claim C10: for every command other than STATUS, on every exit path —
success, `ConnectionAbortedError`, or any other exception, under either
`ERRORNAK` setting — the durable status file ends with
`CommandComplete = true` and the completion timestamp written. -/
theorem claim_C10 (cmd : Command) (run : ExecOutcome) (errornak : Bool)
    (now : String) (template : StatusDict) (s : StatusState)
    (h : cmd ≠ Command.STATUS) :
    (execute_command cmd run errornak now template s).1.file.commandComplete = true ∧
    (execute_command cmd run errornak now template s).1.file.commandCompleteTime
      = now := by
  have hskip : cmd ∉ skip_updates := by
    simp [skip_updates, h]
  unfold execute_command
  rcases hout : (if commandKnown cmd then run else ExecOutcome.raised) with resp | _ | _ <;>
    simp only [hout, if_neg hskip, update_command_complete] <;>
    (try cases errornak) <;> exact ⟨by trivial, by trivial⟩

/-- Witness: `claim_C10` for an OPEN command whose execution raises
`ConnectionAbortedError`, with `ERRORNAK` on. -/
theorem claim_C10_witness :
    (execute_command Command.OPEN ExecOutcome.connAborted true "t1"
        sampleStatusDict sampleStatusState).1.file.commandComplete = true ∧
      (execute_command Command.OPEN ExecOutcome.connAborted true "t1"
        sampleStatusDict sampleStatusState).1.file.commandCompleteTime = "t1" :=
  claim_C10 Command.OPEN ExecOutcome.connAborted true "t1" sampleStatusDict
    sampleStatusState (by decide)


/-! ## Science-header parsing (`BaseACADIA.parse_science_header`)

Active when exactly 6 science-header words are configured per row.  The
source reads `science_words = frame[settings['ASICIDLOWERTELEMETRYROW']][:6]`
(a numeric numpy array), builds the decoded-field dict, and then runs

`chip_number = header.asic_chip_id_lower_matching[science_words['ASICIDLOWERTELEMETRYCOLUMN']]`

inside `try ... except KeyError`, which on `KeyError` keeps the expected
ordinal and sets `self.resync = True`.  Indexing the numeric array
`science_words` with the literal string is rejected by numpy with an
`IndexError` (only integers, slices, ellipsis, newaxis and integer or
boolean arrays are valid indices for a non-structured array), which
`except KeyError` does not catch. -/

/-- An index applied to a numpy array. -/
inductive NpIndex
  | int (i : Int)
  | str (s : String)
  deriving DecidableEq, Repr

/-- Indexing a one-dimensional numeric numpy array: integer indices use
Python semantics (negative counts from the end, out of range raises
`IndexError`); a string index on a non-structured array raises
`IndexError`. -/
def npGet (a : List Nat) : NpIndex → Except PyExc Nat
  | .int i =>
    let j := if i < 0 then (a.length : Int) + i else i
    if _h : 0 ≤ j ∧ j < (a.length : Int) then .ok (a[j.toNat]!)
    else .error .indexError
  | .str _ => .error .indexError

/-- Python dict lookup: `KeyError` when the key is absent. -/
def pyDictGet (d : List (Nat × Nat)) (k : Nat) : Except PyExc Nat :=
  match d.find? (fun p => p.1 == k) with
  | some p => .ok p.2
  | none => .error .keyError

/-- The values `parse_science_header` produces: the decoded science
header, the (possibly reassigned) camera name and index, and the
session's `resync` flag after the call. -/
structure ScienceHeaderResult where
  science_header : List (String × Nat)
  cam_name : String
  cam_index : Nat
  resync : Bool
  deriving DecidableEq, Repr

/-- Source `BaseACADIA.parse_science_header(frame, cam_name, cam_index)`
(detector/macie/io.py).  Arguments: the configured science-header count,
the telemetry row (`settings['ASICIDLOWERTELEMETRYROW']`), the chip-id
lookup table (`settings['ASICCHIPIDLOWER']`), the camera-name list, the
frame, the expected camera name/index, and the current `self.resync`. -/
def parse_science_header
    (n_science_headers asic_id_lower_telemetry_row : Nat)
    (asic_chip_id_lower_matching : List (Nat × Nat))
    (cam_names : List String)
    (frame : List (List Nat))
    (cam_name : String) (cam_index : Nat) (resync : Bool) :
    Except PyExc ScienceHeaderResult :=
  if n_science_headers = 6 then
    let science_words := (frame[asic_id_lower_telemetry_row]!).take n_science_headers
    match science_words with
    | [word1, word2, word3, word4, _word5, word6] =>
      let science_header : List (String × Nat) :=
        [("SCIWRD1", word1), ("SCIWRD2", word2), ("SCIWRD3", word3),
         ("SCIWRD4", word4), ("SCIWRD5", _word5), ("SCIWRD6", word6),
         ("ABLKLEN", word1 &&& 16383),
         ("ABLKCNT", word2 &&& 255),
         ("AASICID", word2 &&& 3840),
         ("AHDRLEN", word2 &&& 28672),
         ("ASDPCNT", word3 &&& 8191),
         ("AFF", word3 &&& 8192),
         ("ARDFRM", word3 &&& 16384),
         ("AEXPVIDL", word3 &&& 32768),
         ("ASCIFRM", word4 &&& 511),
         ("ASCIXPID", word4 &&& 65024)]
      let _chip_id_lower := word6
      let lookup : Except PyExc Nat := do
        let key ← npGet science_words (.str "ASICIDLOWERTELEMETRYCOLUMN")
        pyDictGet asic_chip_id_lower_matching key
      match lookup with
      | .ok chip_number =>
        .ok ⟨science_header, cam_names[chip_number]!, chip_number, resync⟩
      | .error .keyError =>
        .ok ⟨science_header, cam_names[cam_index]!, cam_index, true⟩
      | .error e => .error e
    | _ => .error .valueError
  else
    .ok ⟨[], cam_name, cam_index, resync⟩

/-- Claim C3 describes behaviour the code cannot reach: with 6 science
headers configured, chip id 2 present in the lookup table (mapping to
camera 2) and expected ordinal 0, `parse_science_header` raises
`IndexError` — the numeric `science_words` array is indexed with the
literal string `'ASICIDLOWERTELEMETRYCOLUMN'`, and `except KeyError`
does not catch the resulting `IndexError` — instead of returning
camera 2 with `resync = true`. -/
theorem claim_C3_code_bug :
    parse_science_header 6 0 [(2, 2)] ["cam0", "cam1", "cam2"]
        [[1, 2, 3, 4, 5, 2]] "cam0" 0 false = .error .indexError ∧
      ∀ r : ScienceHeaderResult,
        parse_science_header 6 0 [(2, 2)] ["cam0", "cam1", "cam2"]
          [[1, 2, 3, 4, 5, 2]] "cam0" 0 false ≠ .ok r := by
  constructor
  · rfl
  · intro r h
    have h2 : (Except.error PyExc.indexError : Except PyExc ScienceHeaderResult)
        = Except.ok r :=
      Eq.trans (rfl : parse_science_header 6 0 [(2, 2)] ["cam0", "cam1", "cam2"]
        [[1, 2, 3, 4, 5, 2]] "cam0" 0 false = Except.error PyExc.indexError).symm h
    exact absurd h2 (by simp)

end Asdetector
